import Mathlib

/-!
# Function test library (tensorflow/core/framework/function_testlib.cc)

A shallow embedding of the graph composer `GDef`, the node builder `NDef` and the
function fixtures of `function_testlib.cc`, with the properties stated about them.

Protocol-buffer messages are plain structures; a repeated field is a `List` whose
`add_*` operation appends at the end; a `Map<string, V>` field is `ProtoMap V`.
-/

namespace tensorflow

/-! ## Values carried by attributes -/

/-- The element types named by `DT_*` constants (types.proto). -/
inductive DataType where
  | DT_INVALID | DT_FLOAT | DT_DOUBLE | DT_INT32 | DT_UINT8 | DT_INT16 | DT_INT8
  | DT_STRING | DT_COMPLEX64 | DT_INT64 | DT_BOOL | DT_QINT8 | DT_QUINT8 | DT_QINT32
  | DT_BFLOAT16 | DT_QINT16 | DT_QUINT16 | DT_UINT16 | DT_COMPLEX128 | DT_HALF
  | DT_RESOURCE | DT_VARIANT | DT_UINT32 | DT_UINT64
  deriving DecidableEq, Repr

open DataType

/-- A scalar tensor as the fixtures build it: the element type and the numeric literal
written in the source (`test::AsScalar<int64>(2)`, `test::AsScalar<float>(3)`). -/
structure Tensor where
  dtype : DataType
  scalar : Int
  deriving DecidableEq, Repr

namespace test

/-- The call `test::AsScalar<T>(v)` of tensor_testutil.h, with `T` given by its `DataType`. -/
def AsScalar (dtype : DataType) (v : Int) : Tensor := { dtype := dtype, scalar := v }

end test

/-- The `AttrValue` message: one literal value, a list of them, or a placeholder naming an
attribute of the enclosing function. A float is kept as its bit pattern. -/
inductive AttrValue where
  | s (v : String)
  | i (v : Int)
  | f (bits : Nat)
  | b (v : Bool)
  | type (v : DataType)
  | shape (dims : List Int)
  | tensor (v : Tensor)
  | list (vs : List AttrValue)
  | placeholder (attrName : String)

/-- The placeholders in an attribute value, also inside a list. -/
def AttrValue.placeholders : AttrValue → List String
  | .placeholder p => [p]
  | .list vs => placeholdersOfList vs
  | _ => []
where
  placeholdersOfList : List AttrValue → List String
    | [] => []
    | v :: vs => v.placeholders ++ placeholdersOfList vs

/-! ## Protocol-buffer map fields -/

/-- A `Map<string, V>` field: the entries, one per key. Iteration order of the real
container is unspecified; here entries are kept in order of insertion. -/
structure ProtoMap (V : Type) where
  entries : List (String × V) := []

namespace ProtoMap

variable {V : Type}

/-- The keys present. -/
def keys (m : ProtoMap V) : List String := m.entries.map Prod.fst

/-- Number of entries (`size()`). -/
def size (m : ProtoMap V) : Nat := m.entries.length

/-- Whether a key is present (`contains`). -/
def contains (m : ProtoMap V) (k : String) : Bool := m.keys.contains k

/-- The value stored under a key, if any (`find`). -/
def find (m : ProtoMap V) (k : String) : Option V := m.entries.lookup k

/-- The call `insert({k, v})`: adds the entry when the key is absent and leaves the map
unchanged when the key is already present. -/
def insert (m : ProtoMap V) (k : String) (v : V) : ProtoMap V :=
  if m.contains k then m else { entries := m.entries ++ [(k, v)] }

/-- Inserting a list of pairs one after the other, as a loop over `insert` does. -/
def insertAll (m : ProtoMap V) (kvs : List (String × V)) : ProtoMap V :=
  kvs.foldl (fun m kv => m.insert kv.1 kv.2) m

end ProtoMap

/-! ## Messages -/

/-- The `NodeDef` message. -/
structure NodeDef where
  name : String := ""
  op : String := ""
  input : List String := []
  device : String := ""
  attr : ProtoMap AttrValue := {}

namespace NodeDef

/-- The setter `set_name`. -/
def set_name (n : NodeDef) (v : String) : NodeDef := { n with name := v }

/-- The setter `set_op`. -/
def set_op (n : NodeDef) (v : String) : NodeDef := { n with op := v }

/-- The call `add_input(v)`: appends one input string. -/
def add_input (n : NodeDef) (v : String) : NodeDef := { n with input := n.input ++ [v] }

/-- The setter `set_device`. -/
def set_device (n : NodeDef) (v : String) : NodeDef := { n with device := v }

/-- The statement `n.mutable_attr()->insert({k, v})`. -/
def insert_attr (n : NodeDef) (k : String) (v : AttrValue) : NodeDef :=
  { n with attr := n.attr.insert k v }

end NodeDef

/-- The `VersionDef` message. -/
structure VersionDef where
  producer : Int := 0
  min_consumer : Int := 0
  bad_consumers : List Int := []
  deriving DecidableEq

/-- The two constants of tensorflow/core/public/version.h that `GDef` reads; their values
are fixed at build time and are parameters here. -/
structure VersionConstants where
  TF_GRAPH_DEF_VERSION : Int
  TF_GRAPH_DEF_VERSION_MIN_CONSUMER : Int

/-! ## Function signatures and function definitions

Only function_testlib.cc is under src; the messages built by `FunctionDefHelper` are
declared elsewhere, so their shape follows the data model of the specification. -/

/-- Modelled from the spec: the type part of an `ArgumentSpec` (function.proto / op_def.proto
are not under src): a base type or a placeholder naming an attribute. -/
inductive TypeExpr where
  | base (t : DataType)
  | placeholder (attrName : String)
  deriving DecidableEq, Repr

/-- Modelled from the spec: `ArgumentSpec` (`OpDef.ArgDef`, declared outside src):
a name, a base type or placeholder type, the list flag and the attribute giving the list length. -/
structure ArgumentSpec where
  name : String
  type : TypeExpr
  isList : Bool := false
  listCountRef : Option String := none
  deriving DecidableEq, Repr

/-- The attributes an `ArgumentSpec` refers to: its placeholder type and its list count. -/
def ArgumentSpec.placeholderRefs (a : ArgumentSpec) : List String :=
  (match a.type with
   | .placeholder p => [p]
   | .base _ => []) ++ a.listCountRef.toList

/-- Modelled from the spec: the constraint kinds of an `AttrSpec` (`OpDef.AttrDef`, declared
outside src), one per recognised constraint expression: an enumerated type set, an integer
lower bound, and the two list forms with a minimum length. -/
inductive AttrConstraint where
  | EnumOfTypes (allowed : List DataType)
  | IntRangeMin (k : Int)
  | TypeList (minLength : Nat)
  | ShapeList (minLength : Nat)
  deriving DecidableEq, Repr

/-- Modelled from the spec: `AttrSpec` (`OpDef.AttrDef`, declared outside src):
a name and a constraint kind. -/
structure AttrSpec where
  name : String
  constraint : AttrConstraint
  deriving DecidableEq, Repr

/-- Modelled from the spec: `FunctionDefinition` (the `FunctionDef` message, declared outside
src), field for field. -/
structure FunctionDef where
  name : String := ""
  inputArgs : List ArgumentSpec := []
  outputArgs : List ArgumentSpec := []
  attrSpecs : List AttrSpec := []
  body : List NodeDef := []
  outputMapping : ProtoMap String := {}

/-- The `FunctionDefLibrary` message (its `function` field). -/
structure FunctionDefLibrary where
  function : List FunctionDef := []

namespace FunctionDefLibrary

/-- The statement `*(lib->add_function()) = f`: appends one function definition. -/
def add_function (l : FunctionDefLibrary) (f : FunctionDef) : FunctionDefLibrary :=
  { l with function := l.function ++ [f] }

end FunctionDefLibrary

/-- The `GraphDef` message. A freshly constructed one has every field at its default. -/
structure GraphDef where
  node : List NodeDef := []
  versions : VersionDef := {}
  library : FunctionDefLibrary := {}

namespace GraphDef

/-- The statement `*(g.add_node()) = n`: appends one node. -/
def add_node (g : GraphDef) (n : NodeDef) : GraphDef := { g with node := g.node ++ [n] }

end GraphDef

/-! ## FunctionDefHelper: what a call site writes -/

namespace FunctionDefHelper

/-- A value written at a call site where an `AttrValueWrapper` is expected; the constructor
records which C++ type the literal has (`const char*`, `DataType`, `Tensor`, `int`, `bool`). -/
inductive AttrArg where
  | str (v : String)
  | dtype (v : DataType)
  | tensor (v : Tensor)
  | int (v : Int)
  | bool (v : Bool)
  deriving DecidableEq, Repr

/-- The struct `FDH::AttrValueWrapper`: it holds the `AttrValue` message `proto`. -/
structure AttrValueWrapper where
  proto : AttrValue

/-- Modelled from the spec: the converting constructor of `AttrValueWrapper` (function.h and
function.cc are not under src). A literal becomes the value of its kind, and "any string
beginning with `$` is treated as a `PlaceholderRef` to the attribute of that name". -/
def AttrValueWrapper.ofArg : AttrArg → AttrValueWrapper
  | .str v =>
    match v.data with
    | '$' :: rest => { proto := .placeholder (String.mk rest) }
    | _ => { proto := .s v }
  | .dtype v => { proto := .type v }
  | .tensor v => { proto := .tensor v }
  | .int v => { proto := .i v }
  | .bool v => { proto := .b v }

/-- The struct `FDH::Node` as the fixtures initialise it, slot by slot: the names the node
defines (the first is the node's name), the op, the inputs, the attributes as written, the
fifth slot (an empty list wherever the fixtures write it) and the device. -/
structure Node where
  ret : List String
  op : String
  arg : List String
  attr : List (String × AttrArg)
  dep : List String := []
  device : String := ""
  deriving DecidableEq, Repr

/-- The name of a body node: the first entry of `ret`. -/
def Node.name? (n : Node) : Option String := n.ret.head?

/-- A call of `FDH::Define` (defaulted mode: no output mapping) or of `FDH::Create`
(explicit mode: the output mapping `ret_def` is the last argument), with its arguments in
source order. function.cc is not under src, so a fixture is kept as the call it makes. -/
inductive Call where
  | Define (name : String) (arg_def ret_def attr_def : List String) (node_def : List Node)
  | Create (name : String) (in_def out_def attr_def : List String) (node_def : List Node)
      (ret_def : List (String × String))
  deriving DecidableEq, Repr

namespace Call

/-- The function name. -/
def name : Call → String
  | Define n _ _ _ _ => n
  | Create n _ _ _ _ _ => n

/-- The input signature strings. -/
def inputs : Call → List String
  | Define _ a _ _ _ => a
  | Create _ a _ _ _ _ => a

/-- The output signature strings. -/
def outputs : Call → List String
  | Define _ _ r _ _ => r
  | Create _ _ r _ _ _ => r

/-- The attribute signature strings. -/
def attrs : Call → List String
  | Define _ _ _ a _ => a
  | Create _ _ _ a _ _ => a

/-- The body nodes. -/
def nodes : Call → List Node
  | Define _ _ _ _ n => n
  | Create _ _ _ _ n _ => n

/-- The explicit output-mapping table, when the call has one. -/
def mapping? : Call → Option (List (String × String))
  | Define _ _ _ _ _ => none
  | Create _ _ _ _ _ r => some r

end Call

end FunctionDefHelper

/-! ## The signature parser and the function assembler of the specification -/

namespace FunctionDefHelper

/-- Modelled from the spec: the error kinds raised at construction time (section 7); the
helper that raises them, function.cc, is not under src. -/
inductive AssemblyError where
  | MalformedSignature (text : String)
  | DuplicateName (name : String)
  | DanglingReference (ref : String)
  | IncompleteOutputMapping (outputArg : String)
  | UnboundPlaceholder (attrName : String)
  deriving DecidableEq, Repr

/-- White space. -/
def isSpace (c : Char) : Bool := c == ' ' || c == '\t' || c == '\n' || c == '\r'

/-- Drops the white space at both ends. -/
def trim (cs : List Char) : List Char :=
  ((cs.dropWhile isSpace).reverse.dropWhile isSpace).reverse

/-- Splits at the first occurrence of `sep`: the text before it and the text after it. -/
def splitFirst (sep : Char) (cs : List Char) : Option (List Char × List Char) :=
  match cs.dropWhile (fun c => c != sep) with
  | [] => none
  | _ :: rest => some (cs.takeWhile (fun c => c != sep), rest)

/-- Splits at every occurrence of `sep`. -/
def splitAll (sep : Char) : List Char → List (List Char)
  | [] => [[]]
  | c :: cs =>
    if c == sep then [] :: splitAll sep cs
    else match splitAll sep cs with
      | [] => [[c]]
      | piece :: pieces => (c :: piece) :: pieces

/-- An identifier: a letter followed by letters, digits and underscores. -/
def isIdentifier : List Char → Bool
  | [] => false
  | c :: cs => c.isAlpha && cs.all (fun d => d.isAlphanum || d == '_')

/-- Modelled from the spec: the bare type keywords (`float`, `int32`, ...) of a type
expression; the table that names the element types (types.cc) is not under src. It lists
the lower-case name of every `DataType`. -/
def typeKeyword? (word : String) : Option DataType :=
  [ ("float", DT_FLOAT), ("double", DT_DOUBLE), ("int32", DT_INT32), ("uint8", DT_UINT8),
    ("int16", DT_INT16), ("int8", DT_INT8), ("string", DT_STRING),
    ("complex64", DT_COMPLEX64), ("int64", DT_INT64), ("bool", DT_BOOL),
    ("qint8", DT_QINT8), ("quint8", DT_QUINT8), ("qint32", DT_QINT32),
    ("bfloat16", DT_BFLOAT16), ("qint16", DT_QINT16), ("quint16", DT_QUINT16),
    ("uint16", DT_UINT16), ("complex128", DT_COMPLEX128), ("half", DT_HALF),
    ("resource", DT_RESOURCE), ("variant", DT_VARIANT), ("uint32", DT_UINT32),
    ("uint64", DT_UINT64) ].lookup word

/-- Modelled from the spec: a type keyword or a placeholder identifier (section 4.1; the
parser, op_def_builder.cc, is not under src). -/
def parseType (cs : List Char) : Except AssemblyError TypeExpr :=
  if isIdentifier cs then
    match typeKeyword? (String.mk cs) with
    | some t => .ok (.base t)
    | none => .ok (.placeholder (String.mk cs))
  else .error (.MalformedSignature (String.mk cs))

/-- Modelled from the spec: the parser of an argument signature `name: typeExpr`
(section 4.1; op_def_builder.cc is not under src). The type expression is a type keyword,
a placeholder identifier, or the list form `countAttrName * type`. -/
def parseArg (sig : String) : Except AssemblyError ArgumentSpec :=
  match splitFirst ':' sig.data with
  | none => .error (.MalformedSignature sig)
  | some (n, t) =>
    if isIdentifier (trim n) then
      match splitFirst '*' t with
      | none =>
        match parseType (trim t) with
        | .ok ty => .ok { name := String.mk (trim n), type := ty }
        | .error e => .error e
      | some (count, elt) =>
        if isIdentifier (trim count) then
          match parseType (trim elt) with
          | .ok ty =>
            .ok { name := String.mk (trim n), type := ty, isList := true,
                  listCountRef := some (String.mk (trim count)) }
          | .error e => .error e
        else .error (.MalformedSignature (String.mk (trim count)))
    else .error (.MalformedSignature (String.mk (trim n)))

/-- A decimal natural number. -/
def parseNat? (cs : List Char) : Option Nat :=
  if cs.isEmpty || !cs.all Char.isDigit then none
  else some (cs.foldl (fun acc c => 10 * acc + (c.toNat - '0'.toNat)) 0)

/-- A decimal integer, with an optional minus sign. -/
def parseInt? : List Char → Option Int
  | '-' :: cs => (parseNat? cs).map (fun k => - (k : Int))
  | cs => (parseNat? cs).map (fun k => (k : Int))

/-- The type keywords of an enumerated set, in order. -/
def parseTypeSet : List (List Char) → Except AssemblyError (List DataType)
  | [] => .ok []
  | w :: ws =>
    match typeKeyword? (String.mk (trim w)) with
    | none => .error (.MalformedSignature (String.mk (trim w)))
    | some t =>
      match parseTypeSet ws with
      | .ok ts => .ok (t :: ts)
      | .error e => .error e

/-- Modelled from the spec: the recognised attribute constraint expressions (section 4.1;
op_def_builder.cc is not under src): an enumerated allowed type set in braces, `int >= k`,
`list(type) >= k` and `list(shape) >= k`. -/
def parseConstraint (cs : List Char) : Except AssemblyError AttrConstraint :=
  match cs with
  | '\x7b' :: rest =>
    match rest.reverse with
    | '\x7d' :: inner =>
      match parseTypeSet (splitAll ',' inner.reverse) with
      | .ok ts => .ok (.EnumOfTypes ts)
      | .error e => .error e
    | _ => .error (.MalformedSignature (String.mk cs))
  | _ =>
    match splitFirst '>' cs with
    | some (kind, '=' :: bound) =>
      if trim kind = "int".data then
        match parseInt? (trim bound) with
        | some k => .ok (.IntRangeMin k)
        | none => .error (.MalformedSignature (String.mk (trim bound)))
      else if trim kind = "list(type)".data then
        match parseNat? (trim bound) with
        | some k => .ok (.TypeList k)
        | none => .error (.MalformedSignature (String.mk (trim bound)))
      else if trim kind = "list(shape)".data then
        match parseNat? (trim bound) with
        | some k => .ok (.ShapeList k)
        | none => .error (.MalformedSignature (String.mk (trim bound)))
      else .error (.MalformedSignature (String.mk (trim kind)))
    | _ => .error (.MalformedSignature (String.mk cs))

/-- Modelled from the spec: the parser of an attribute signature `name: constraintExpr`
(section 4.1; op_def_builder.cc is not under src). -/
def parseAttr (sig : String) : Except AssemblyError AttrSpec :=
  match splitFirst ':' sig.data with
  | none => .error (.MalformedSignature sig)
  | some (n, c) =>
    if isIdentifier (trim n) then
      match parseConstraint (trim c) with
      | .ok k => .ok { name := String.mk (trim n), constraint := k }
      | .error e => .error e
    else .error (.MalformedSignature (String.mk (trim n)))

/-- Applies a parser to every signature in source order, stopping at the first failure. -/
def parseAll {α : Type} (p : String → Except AssemblyError α) :
    List String → Except AssemblyError (List α)
  | [] => .ok []
  | sig :: sigs =>
    match p sig with
    | .error e => .error e
    | .ok a =>
      match parseAll p sigs with
      | .ok as => .ok (a :: as)
      | .error e => .error e

end FunctionDefHelper

/-- The typedef `FDH`. -/
abbrev FDH.AttrValueWrapper := FunctionDefHelper.AttrValueWrapper

namespace test.function

open FunctionDefHelper

/-! ## The graph composer and the node builder -/

/-- The function `GDef` (function_testlib.cc, lines 31-45). -/
def GDef (c : VersionConstants) (nodes : List NodeDef) (funcs : List FunctionDef) : GraphDef :=
  let g : GraphDef := {}
  let g := { g with versions := { g.versions with producer := c.TF_GRAPH_DEF_VERSION } }
  let g := { g with versions :=
    { g.versions with min_consumer := c.TF_GRAPH_DEF_VERSION_MIN_CONSUMER } }
  let g := nodes.foldl (fun g n => g.add_node n) g
  let lib := funcs.foldl (fun lib f => lib.add_function f) g.library
  { g with library := lib }

/-- The function `NDef` (function_testlib.cc, lines 48-58). -/
def NDef (name op : String) (inputs : List String)
    (attrs : List (String × FDH.AttrValueWrapper)) (device : String) : NodeDef :=
  let n : NodeDef := {}
  let n := n.set_name name
  let n := n.set_op op
  let n := inputs.foldl (fun n i => n.add_input i) n
  let n := n.set_device device
  let n := attrs.foldl (fun n na => n.insert_attr na.1 na.2.proto) n
  n

end test.function

namespace FunctionDefHelper

/-! ### Names and references -/

/-- Modelled from the spec: the node part of an input reference `node`, `node:arg` or
`node:arg:index` (section 4.2; the code that reads references is not under src): the text
before the first `:`. -/
def nodePart (ref : String) : String := String.mk (ref.data.takeWhile (fun c => c != ':'))

/-- Modelled from the spec: the name a signature string `name: expr` declares (section 4.1;
op_def_builder.cc is not under src): the text before the first `:`, without the white space
around it. -/
def declaredName (sig : String) : String :=
  String.mk (trim (sig.data.takeWhile (fun c => c != ':')))

/-- The names of the body nodes, in order. -/
def nodeNames (nodes : List Node) : List String := nodes.filterMap Node.name?

namespace Call

/-- The declared input argument names. -/
def inputNames (c : Call) : List String := c.inputs.map declaredName

/-- The declared output argument names. -/
def outputNames (c : Call) : List String := c.outputs.map declaredName

/-- The declared attribute names. -/
def attrNames (c : Call) : List String := c.attrs.map declaredName

end Call

/-- The first name that occurs again later in the list. -/
def firstDuplicate : List String → Option String
  | [] => none
  | x :: xs => if xs.contains x then some x else firstDuplicate xs

/-! ### The assembler -/

/-- Modelled from the spec: how the assembler builds one body node (function.cc is not
under src). The node is the node builder's record for the name, op, inputs, converted
attributes and device; a repeated attribute name within the node is a `DuplicateName`
(section 7). -/
def buildBodyNode (n : Node) : Except AssemblyError NodeDef :=
  match n.name? with
  | none => .error (.MalformedSignature "")
  | some name =>
    match firstDuplicate (n.attr.map Prod.fst) with
    | some a => .error (.DuplicateName a)
    | none =>
      .ok (test.function.NDef name n.op n.arg
        (n.attr.map (fun kv => (kv.1, AttrValueWrapper.ofArg kv.2))) n.device)

/-- Builds the body nodes in order, stopping at the first failure. -/
def buildBody : List Node → Except AssemblyError (List NodeDef)
  | [] => .ok []
  | n :: ns =>
    match buildBodyNode n with
    | .error e => .error e
    | .ok d =>
      match buildBody ns with
      | .ok ds => .ok (d :: ds)
      | .error e => .error e

/-- Modelled from the spec: "every `InputRef` in every node's inputs resolves to either a
declared input argument name or an earlier/same-scope node name (forward references to
not-yet-defined nodes are rejected)" (section 4.3; function.cc is not under src). The spec
names no argument that marks a function as cyclic, so the check applies to every body. -/
def checkInputRefs (inputNames : List String) :
    List String → List NodeDef → Except AssemblyError Unit
  | _, [] => .ok ()
  | earlier, n :: rest =>
    match n.input.find? (fun r => !(inputNames ++ earlier).contains (nodePart r)) with
    | some r => .error (.DanglingReference r)
    | none => checkInputRefs inputNames (earlier ++ [n.name]) rest

/-- Modelled from the spec: "every `PlaceholderRef` names a declared attribute", for the
attribute values of the body and for the type and list count of the arguments (sections 3
and 4.3; function.cc is not under src). -/
def checkPlaceholders (attrNames : List String) (args : List ArgumentSpec)
    (body : List NodeDef) : Except AssemblyError Unit :=
  let used := args.flatMap ArgumentSpec.placeholderRefs ++
    body.flatMap (fun n => n.attr.entries.flatMap (fun kv => kv.2.placeholders))
  match used.find? (fun p => !attrNames.contains p) with
  | some p => .error (.UnboundPlaceholder p)
  | none => .ok ()

/-- Modelled from the spec: "the output mapping is complete: every declared output argument
has exactly one mapping entry, and every mapping target resolves to a valid input argument
or node output" (section 4.3; function.cc is not under src). -/
def checkOutputMapping (outputNames inputNames bodyNames : List String)
    (table : List (String × String)) : Except AssemblyError Unit :=
  match outputNames.find? (fun o => (table.filter (fun e => e.1 == o)).length != 1) with
  | some o => .error (.IncompleteOutputMapping o)
  | none =>
    match table.find? (fun e => !(inputNames ++ bodyNames).contains (nodePart e.2)) with
    | some e => .error (.DanglingReference e.2)
    | none => .ok ()

/-- Modelled from the spec: the defaulted output mapping, "each declared output argument
maps, in declaration order, to the default output of the correspondingly-named node in
`body`" (section 4.3; function.cc is not under src). The default output of a node is
written as the bare node name. -/
def defaultOutputMapping (outputNames : List String) : List (String × String) :=
  outputNames.map (fun o => (o, o))

/-- Modelled from the spec: `assemble(name, inputArgs, outputArgs, attrSpecs, body[,
outputMapping])` of section 4.3, the behaviour of `FDH::Define` (no mapping) and
`FDH::Create` (explicit mapping); function.cc is not under src. The signatures are parsed,
the body is built, the four validations run in the order the spec lists them, and only then
is a definition returned. -/
def assemble (name : String) (inputArgs outputArgs attrSpecs : List String)
    (body : List Node) (outputMapping : Option (List (String × String))) :
    Except AssemblyError FunctionDef :=
  match parseAll parseArg inputArgs with
  | .error e => .error e
  | .ok ins =>
  match parseAll parseArg outputArgs with
  | .error e => .error e
  | .ok outs =>
  match parseAll parseAttr attrSpecs with
  | .error e => .error e
  | .ok specs =>
  match buildBody body with
  | .error e => .error e
  | .ok nodes =>
  match firstDuplicate (nodes.map NodeDef.name) with
  | some n => .error (.DuplicateName n)
  | none =>
  match checkInputRefs (ins.map ArgumentSpec.name) [] nodes with
  | .error e => .error e
  | .ok _ =>
  match checkPlaceholders (specs.map AttrSpec.name) (ins ++ outs) nodes with
  | .error e => .error e
  | .ok _ =>
  let table := outputMapping.getD (defaultOutputMapping (outs.map ArgumentSpec.name))
  match checkOutputMapping (outs.map ArgumentSpec.name) (ins.map ArgumentSpec.name)
      (nodes.map NodeDef.name) table with
  | .error e => .error e
  | .ok _ =>
    .ok { name := name, inputArgs := ins, outputArgs := outs, attrSpecs := specs,
          body := nodes,
          outputMapping := table.foldl (fun m e => m.insert e.1 e.2) {} }

/-- The function definition a fixture's call returns. -/
def Call.result (c : Call) : Except AssemblyError FunctionDef :=
  assemble c.name c.inputs c.outputs c.attrs c.nodes c.mapping?


/-! ### Checks on a fixture's call -/

/-- The attribute a call-site value refers to when it is a string that begins with `$`: the
rest of the string. -/
def AttrArg.dollarRefs : AttrArg → List String
  | .str v =>
    match v.data with
    | '$' :: rest => [String.mk rest]
    | _ => []
  | _ => []

/-- Whether an argument signature parses and every attribute it refers to is among
`attrNames`. -/
def argPlaceholdersDeclared (attrNames : List String) (sig : String) : Bool :=
  match parseArg sig with
  | .ok a => a.placeholderRefs.all (fun p => attrNames.contains p)
  | .error _ => false

/-- Whether, walking the body in order, every input reference of every node names a declared
input or a node already passed, and none names the node itself or a node still to come;
`earlier` holds the names of the nodes already passed. -/
def refsResolveFrom (inputNames : List String) : List String → List Node → Bool
  | _, [] => true
  | earlier, n :: rest =>
    n.arg.all (fun r =>
      (inputNames.contains (nodePart r) || earlier.contains (nodePart r)) &&
        !(nodeNames (n :: rest)).contains (nodePart r)) &&
    refsResolveFrom inputNames (earlier ++ nodeNames [n]) rest

end FunctionDefHelper

namespace test.function

open FunctionDefHelper

/-! ## The fixtures (function_testlib.cc, lines 60-495) -/

/-- The fixture `NonZero` (lines 60-74). -/
def NonZero : Call :=
  .Define "NonZero" ["x:T"] ["y:T"] ["T:\x7bfloat, double, int32, int64, string\x7d"]
    [ ⟨["y"], "Identity", ["x"], [("T", .str "$T")], [], ""⟩ ]

/-- The fixture `IsZero` (lines 76-92). -/
def IsZero : Call :=
  let kZero := test.AsScalar DT_INT64 0
  .Define "IsZero" ["x: T"] ["equal: T"] ["T:\x7bfloat, double, int32, int64, string\x7d"]
    [ ⟨["zero"], "Const", [], [("value", .tensor kZero), ("dtype", .dtype DT_INT64)], [], ""⟩,
      ⟨["cast"], "Cast", ["zero"], [("SrcT", .dtype DT_INT64), ("DstT", .str "$T")], [], ""⟩,
      ⟨["equal"], "Equal", ["x", "cast"], [("T", .str "$T")], [], ""⟩ ]

/-- The fixture `RandomUniform` (lines 94-117). -/
def RandomUniform : Call :=
  let kZero := test.AsScalar DT_INT64 0
  .Define "RandomUniform" ["x: T"] ["random_uniform: int64"]
    ["T:\x7bfloat, double, int32, int64, string\x7d"]
    [ ⟨["random_uniform/shape"], "Const", [],
        [("value", .tensor kZero), ("dtype", .dtype DT_INT64)], [], ""⟩,
      ⟨["random_uniform"], "RandomUniform", ["random_uniform/shape"],
        [("T", .dtype DT_INT32), ("Tout", .dtype DT_FLOAT), ("seed", .int 87654321),
         ("seed2", .int 42)], [], ""⟩ ]

/-- The fixture `XTimesTwo` (lines 119-136). -/
def XTimesTwo : Call :=
  let kTwo := test.AsScalar DT_INT64 2
  .Define "XTimesTwo" ["x: T"] ["y: T"] ["T: \x7bfloat, double, int32, int64\x7d"]
    [ ⟨["two"], "Const", [], [("value", .tensor kTwo), ("dtype", .dtype DT_INT64)], [], ""⟩,
      ⟨["scale"], "Cast", ["two"], [("SrcT", .dtype DT_INT64), ("DstT", .str "$T")], [], ""⟩,
      ⟨["y"], "Mul", ["x", "scale"], [("T", .str "$T")], [], ""⟩ ]

/-- The fixture `TwoDeviceMult` (lines 138-176). -/
def TwoDeviceMult : Call :=
  let kTwo := test.AsScalar DT_INT64 2
  let kThree := test.AsScalar DT_INT64 3
  .Create "TwoDeviceMult" ["x: T"] ["y_cpu: T", "y_gpu: T"]
    ["T: \x7bfloat, double, int32, int64\x7d"]
    [ ⟨["num_2"], "Const", [], [("value", .tensor kTwo), ("dtype", .dtype DT_INT64)], [], ""⟩,
      ⟨["num_3"], "Const", [], [("value", .tensor kThree), ("dtype", .dtype DT_INT64)], [], ""⟩,
      ⟨["factor_2"], "Cast", ["num_2:output:0"],
        [("SrcT", .dtype DT_INT64), ("DstT", .str "$T")], [], ""⟩,
      ⟨["factor_3"], "Cast", ["num_3:output:0"],
        [("SrcT", .dtype DT_INT64), ("DstT", .str "$T")], [], ""⟩,
      ⟨["y_cpu"], "Mul", ["x", "factor_2:y:0"], [("T", .str "$T")], [], "/device:CPU:0"⟩,
      ⟨["y_gpu"], "Mul", ["x", "factor_3:y:0"], [("T", .str "$T")], [], "/device:GPU:0"⟩ ]
    [("y_cpu", "y_cpu:z:0"), ("y_gpu", "y_gpu:z:0")]

/-- The fixture `TwoDeviceInputOutput` (lines 178-208). -/
def TwoDeviceInputOutput : Call :=
  let kTwo := test.AsScalar DT_FLOAT 2
  let kThree := test.AsScalar DT_FLOAT 3
  .Create "TwoDeviceInputOutput" ["x1: T", "x2: T"] ["y_cpu: T", "y_gpu: T"]
    ["T: \x7bfloat\x7d"]
    [ ⟨["num_2"], "Const", [], [("value", .tensor kTwo), ("dtype", .dtype DT_FLOAT)], [], ""⟩,
      ⟨["num_3"], "Const", [], [("value", .tensor kThree), ("dtype", .dtype DT_FLOAT)], [], ""⟩,
      ⟨["y_cpu"], "Mul", ["x1", "num_2:output:0"], [("T", .str "$T")], [], "/device:CPU:0"⟩,
      ⟨["y_gpu"], "Mul", ["x2", "num_3:output:0"], [("T", .str "$T")], [], "/device:GPU:0"⟩ ]
    [("y_cpu", "y_cpu:z:0"), ("y_gpu", "y_gpu:z:0")]

/-- The fixture `FuncWithListInput` (lines 210-226). -/
def FuncWithListInput : Call :=
  let kTwo := test.AsScalar DT_FLOAT 2
  .Create "FuncWithListInput" ["x1: N * T"] [] ["T: \x7bfloat\x7d", "N: int >= 1"]
    [ ⟨["num_2"], "Const", [], [("value", .tensor kTwo), ("dtype", .dtype DT_FLOAT)], [], ""⟩ ]
    []

/-- The fixture `FuncWithListOutput` (lines 228-244). -/
def FuncWithListOutput : Call :=
  let kTwo := test.AsScalar DT_FLOAT 2
  .Create "FuncWithListOutput" [] ["y: N * T"] ["T: \x7bfloat\x7d", "N: int >= 1"]
    [ ⟨["num_2"], "Const", [], [("value", .tensor kTwo), ("dtype", .dtype DT_FLOAT)], [], ""⟩ ]
    [("y", "num_2:output:0")]

/-- The fixture `XAddX` (lines 246-260). -/
def XAddX : Call :=
  .Define "XAddX" ["x: T"] ["y: T"] ["T: \x7bfloat, double, int32, int64\x7d"]
    [ ⟨["y"], "Add", ["x", "x"], [("T", .str "$T")], [], ""⟩ ]

/-- The fixture `XTimesTwoInt32` (lines 262-280). -/
def XTimesTwoInt32 : Call :=
  let kTwo := test.AsScalar DT_INT64 2
  .Define "XTimesTwoInt32" ["x: int32"] ["y: int32"] []
    [ ⟨["two"], "Const", [], [("value", .tensor kTwo), ("dtype", .dtype DT_INT64)], [], ""⟩,
      ⟨["scale"], "Cast", ["two"],
        [("SrcT", .dtype DT_INT64), ("DstT", .dtype DT_INT32)], [], ""⟩,
      ⟨["y"], "Mul", ["x", "scale"], [("T", .dtype DT_INT32)], [], ""⟩ ]

/-- The fixture `XTimesFour` (lines 282-298). -/
def XTimesFour : Call :=
  .Create "XTimesFour" ["x: T"] ["y: T"] ["T: \x7bfloat, double, int32, int64\x7d"]
    [ ⟨["x2"], "XTimesTwo", ["x"], [("T", .str "$T")], [], ""⟩,
      ⟨["y"], "XTimesTwo", ["x2:y:0"], [("T", .str "$T")], [], ""⟩ ]
    [("y", "y:y:0")]

/-- The fixture `XTimes16` (lines 300-316). -/
def XTimes16 : Call :=
  .Create "XTimes16" ["x: T"] ["y: T"] ["T: \x7bfloat, double, int32, int64\x7d"]
    [ ⟨["x4"], "XTimesFour", ["x"], [("T", .str "$T")], [], ""⟩,
      ⟨["y"], "XTimesFour", ["x4:y:0"], [("T", .str "$T")], [], ""⟩ ]
    [("y", "y:y:0")]

/-- The fixture `WXPlusB` (lines 318-337). -/
def WXPlusB : Call :=
  .Define "WXPlusB" ["w: T", "x: T", "b: T"] ["y: T"] ["T: \x7bfloat, double\x7d"]
    [ ⟨["mm"], "MatMul", ["w", "x"],
        [("T", .str "$T"), ("transpose_a", .bool false), ("transpose_b", .bool false),
         ("_kernel", .str "eigen")], [], ""⟩,
      ⟨["y"], "Add", ["mm", "b"], [("T", .str "$T")], [], ""⟩ ]

/-- The fixture `Swap` (lines 339-352). -/
def Swap : Call :=
  .Define "Swap" ["i0: T", "i1: T"] ["o0: T", "o1: T"] ["T: \x7bfloat, double\x7d"]
    [ ⟨["o0"], "Identity", ["i1"], [("T", .str "$T")], [], ""⟩,
      ⟨["o1"], "Identity", ["i0"], [("T", .str "$T")], [], ""⟩ ]

/-- The fixture `EmptyBodySwap` (lines 354-368). -/
def EmptyBodySwap : Call :=
  .Create "EmptyBodySwap" ["i0: T", "i1: T"] ["o0: T", "o1: T"] ["T: \x7bfloat, double\x7d"]
    []
    [("o0", "i1"), ("o1", "i0")]

/-- The fixture `ResourceOutput` (lines 370-387). -/
def ResourceOutput : Call :=
  let kTwo := test.AsScalar DT_FLOAT 2
  .Create "ResourceOutput" ["x: float", "y: resource"] ["y_out: resource", "two_x: float"] []
    [ ⟨["two"], "Const", [], [("value", .tensor kTwo), ("dtype", .dtype DT_FLOAT)], [], ""⟩,
      ⟨["mul"], "Mul", ["x", "two:output:0"], [("T", .dtype DT_FLOAT)], [], ""⟩ ]
    [("y_out", "y"), ("two_x", "mul:z:0")]

/-- The fixture `ReadResourceVariable` (lines 389-404). -/
def ReadResourceVariable : Call :=
  .Create "ReadResourceVariable" ["x: resource"] ["y: float"] []
    [ ⟨["read"], "ReadVariableOp", ["x"], [("dtype", .dtype DT_FLOAT)], [], ""⟩ ]
    [("y", "read:value:0")]

/-- The fixture `InvalidControlFlow` (lines 406-421). -/
def InvalidControlFlow : Call :=
  .Create "InvalidControlFlow" ["i: int32"] ["o: int32"] []
    [ ⟨["enter"], "Enter", ["i"],
        [("T", .dtype DT_INT32), ("frame_name", .str "while")], [], ""⟩,
      ⟨["add"], "Add", ["enter:output", "i"], [("T", .dtype DT_INT32)], [], ""⟩ ]
    [("o", "add:z")]

/-- The fixture `LessThanOrEqualToN` (lines 423-440); its `int64` argument `N` is any integer here. -/
def LessThanOrEqualToN (N : Int) : Call :=
  let kN := test.AsScalar DT_INT64 N
  .Define "LessThanOrEqualToN" ["x: T"] ["z: bool"] ["T: \x7bfloat, double, int32, int64\x7d"]
    [ ⟨["N"], "Const", [], [("value", .tensor kN), ("dtype", .dtype DT_INT64)], [], ""⟩,
      ⟨["y"], "Cast", ["N"], [("SrcT", .dtype DT_INT64), ("DstT", .str "$T")], [], ""⟩,
      ⟨["z"], "LessEqual", ["x", "y"], [("T", .str "$T")], [], ""⟩ ]

/-- The fixture `XPlusOneXTimesY` (lines 442-458). -/
def XPlusOneXTimesY : Call :=
  let kOne := test.AsScalar DT_INT64 1
  .Define "XPlusOneXTimesY" ["x: T", "y: T"] ["s: T", "t: T"]
    ["T: \x7bfloat, double, int32, int64\x7d"]
    [ ⟨["one"], "Const", [], [("value", .tensor kOne), ("dtype", .dtype DT_INT64)], [], ""⟩,
      ⟨["increment"], "Cast", ["one"],
        [("SrcT", .dtype DT_INT64), ("DstT", .str "$T")], [], ""⟩,
      ⟨["s"], "Add", ["x", "increment"], [("T", .str "$T")], [], ""⟩,
      ⟨["t"], "Mul", ["x", "y"], [("T", .str "$T")], [], ""⟩ ]

/-- The fixture `XYXLessThanOrEqualToN` (lines 460-477); its `int64` argument `N` is any integer here. -/
def XYXLessThanOrEqualToN (N : Int) : Call :=
  let kN := test.AsScalar DT_INT64 N
  .Define "XYXLessThanOrEqualToN" ["x: T", "y: T"] ["z: bool"]
    ["T: \x7bfloat, double, int32, int64\x7d"]
    [ ⟨["N"], "Const", [], [("value", .tensor kN), ("dtype", .dtype DT_INT64)], [], ""⟩,
      ⟨["N1"], "Cast", ["N"], [("SrcT", .dtype DT_INT64), ("DstT", .str "$T")], [], ""⟩,
      ⟨["z"], "LessEqual", ["x", "N1"], [("T", .str "$T")], [], ""⟩ ]

/-- The fixture `MakeTensorSliceDataset` (lines 479-495). -/
def MakeTensorSliceDataset : Call :=
  .Define "MakeTensorSliceDataset" ["x:Toutput_types"] ["y:variant"]
    ["Toutput_types: list(type) >= 1", "output_shapes: list(shape) >= 1"]
    [ ⟨["y"], "TensorSliceDataset", ["x"],
        [("Toutput_types", .str "$Toutput_types"),
         ("output_shapes", .str "$output_shapes")], [], ""⟩ ]

/-- The fixtures that take no argument, in source order. -/
def constantFixtures : List Call :=
  [NonZero, IsZero, RandomUniform, XTimesTwo, TwoDeviceMult, TwoDeviceInputOutput,
   FuncWithListInput, FuncWithListOutput, XAddX, XTimesTwoInt32, XTimesFour, XTimes16,
   WXPlusB, Swap, EmptyBodySwap, ResourceOutput, ReadResourceVariable, InvalidControlFlow,
   XPlusOneXTimesY, MakeTensorSliceDataset]

/-- The fixtures built with `FDH::Create`, in source order. -/
def explicitFixtures : List Call :=
  [TwoDeviceMult, TwoDeviceInputOutput, FuncWithListInput, FuncWithListOutput, XTimesFour,
   XTimes16, EmptyBodySwap, ResourceOutput, ReadResourceVariable, InvalidControlFlow]

/-- The argument-free fixtures built with `FDH::Define`, in source order. -/
def defaultedFixtures : List Call :=
  [NonZero, IsZero, RandomUniform, XTimesTwo, XAddX, XTimesTwoInt32, WXPlusB, Swap,
   XPlusOneXTimesY, MakeTensorSliceDataset]

/-- A function fixture of this file: one of the argument-free fixtures, or one of the two
fixtures parameterised by `N` at some value of `N`. -/
def IsFixture (c : Call) : Prop :=
  c ∈ constantFixtures ∨ (∃ N, c = LessThanOrEqualToN N) ∨ (∃ N, c = XYXLessThanOrEqualToN N)

/-- A fixture of this file built with `FDH::Define`: one of the argument-free ones, or one of
the two parameterised by `N`. -/
def IsDefaultedFixture (c : Call) : Prop :=
  c ∈ defaultedFixtures ∨ (∃ N, c = LessThanOrEqualToN N) ∨ (∃ N, c = XYXLessThanOrEqualToN N)

end test.function

/-! ## Properties of the map model -/

namespace ProtoMap

variable {V : Type}

theorem contains_iff (m : ProtoMap V) (k : String) : m.contains k = true ↔ k ∈ m.keys := by
  simp [contains]

theorem contains_eq_false_iff (m : ProtoMap V) (k : String) :
    m.contains k = false ↔ k ∉ m.keys := by
  rw [← contains_iff, Bool.not_eq_true]

theorem keys_insert (m : ProtoMap V) (k : String) (v : V) :
    (m.insert k v).keys = if k ∈ m.keys then m.keys else m.keys ++ [k] := by
  unfold insert
  by_cases h : k ∈ m.keys
  · rw [(contains_iff m k).2 h]
    simp [h]
  · rw [(contains_eq_false_iff m k).2 h, if_neg h]
    simp [keys]

theorem entries_insert (m : ProtoMap V) (k : String) (v : V) :
    (m.insert k v).entries = if k ∈ m.keys then m.entries else m.entries ++ [(k, v)] := by
  unfold insert
  by_cases h : k ∈ m.keys
  · rw [(contains_iff m k).2 h]
    simp [h]
  · rw [(contains_eq_false_iff m k).2 h]
    simp [h]

theorem insertAll_nil (m : ProtoMap V) : m.insertAll [] = m := rfl

theorem insertAll_cons (m : ProtoMap V) (kv : String × V) (kvs : List (String × V)) :
    m.insertAll (kv :: kvs) = (m.insert kv.1 kv.2).insertAll kvs := rfl

theorem mem_keys_insertAll (kvs : List (String × V)) (m : ProtoMap V) (k : String) :
    k ∈ (m.insertAll kvs).keys ↔ k ∈ m.keys ∨ k ∈ kvs.map Prod.fst := by
  induction kvs generalizing m with
  | nil => simp [insertAll_nil]
  | cons kv kvs ih =>
    rw [insertAll_cons, ih, keys_insert]
    by_cases h : kv.1 ∈ m.keys
    · simp only [h, if_true, List.map_cons, List.mem_cons]
      constructor
      · rintro (h1 | h1)
        · exact Or.inl h1
        · exact Or.inr (Or.inr h1)
      · rintro (h1 | h1 | h1)
        · exact Or.inl h1
        · exact Or.inl (h1 ▸ h)
        · exact Or.inr h1
    · simp only [h, if_false, List.mem_append, List.mem_singleton, List.map_cons, List.mem_cons]
      tauto

theorem nodup_keys_insert (m : ProtoMap V) (k : String) (v : V) (h : m.keys.Nodup) :
    (m.insert k v).keys.Nodup := by
  rw [keys_insert]
  by_cases hk : k ∈ m.keys
  · simpa [hk] using h
  · simp only [hk, if_false]
    exact List.Nodup.append h (List.nodup_singleton k) (by simpa using hk)

theorem nodup_keys_insertAll (kvs : List (String × V)) (m : ProtoMap V) (h : m.keys.Nodup) :
    (m.insertAll kvs).keys.Nodup := by
  induction kvs generalizing m with
  | nil => simpa [insertAll_nil] using h
  | cons kv kvs ih =>
    rw [insertAll_cons]
    exact ih _ (nodup_keys_insert m kv.1 kv.2 h)

theorem lookup_append_of_mem {l₁ l₂ : List (String × V)} {k : String}
    (h : k ∈ l₁.map Prod.fst) : (l₁ ++ l₂).lookup k = l₁.lookup k := by
  induction l₁ with
  | nil => simp at h
  | cons e l ih =>
    obtain ⟨a, b⟩ := e
    by_cases hk : k = a
    · subst hk
      simp [List.lookup]
    · have hne : (k == a) = false := by simpa using hk
      have hl : k ∈ l.map Prod.fst := by
        simp only [List.map_cons, List.mem_cons] at h
        rcases h with h | h
        · exact absurd h hk
        · exact h
      simp only [List.cons_append, List.lookup, hne]
      exact ih hl

theorem lookup_append_of_not_mem {l₁ l₂ : List (String × V)} {k : String}
    (h : k ∉ l₁.map Prod.fst) : (l₁ ++ l₂).lookup k = l₂.lookup k := by
  induction l₁ with
  | nil => rfl
  | cons e l ih =>
    obtain ⟨a, b⟩ := e
    simp only [List.map_cons, List.mem_cons, not_or] at h
    have hne : (k == a) = false := by simpa using h.1
    simp only [List.cons_append, List.lookup, hne]
    exact ih h.2

/-- A lookup after the loop sees the pairs in the order they were offered: the pairs
already in the map first, then the new ones, so the first pair offered for a key wins. -/
theorem find_insertAll (kvs : List (String × V)) (m : ProtoMap V) (k : String) :
    (m.insertAll kvs).find k = (m.entries ++ kvs).lookup k := by
  induction kvs generalizing m with
  | nil => simp [insertAll_nil, find]
  | cons kv kvs ih =>
    rw [insertAll_cons, ih, entries_insert]
    by_cases h : kv.1 ∈ m.keys
    · simp only [h, if_true]
      by_cases hk : k ∈ m.entries.map Prod.fst
      · rw [lookup_append_of_mem hk, lookup_append_of_mem hk]
      · rw [lookup_append_of_not_mem hk, lookup_append_of_not_mem hk]
        have hne : (k == kv.1) = false := by
          have : k ≠ kv.1 := fun e => hk (e ▸ h)
          simpa using this
        obtain ⟨a, b⟩ := kv
        simp only [List.lookup]
        simp only at hne
        rw [hne]
    · simp only [h, if_false, List.append_assoc, List.singleton_append]

theorem size_eq_length_keys (m : ProtoMap V) : m.size = m.keys.length := by
  simp [size, keys]

end ProtoMap

/-! ## The graph composer and the node builder: loops in closed form -/

namespace test.function

open FunctionDefHelper

theorem foldl_add_node (nodes : List NodeDef) (g : GraphDef) :
    nodes.foldl (fun g n => g.add_node n) g = { g with node := g.node ++ nodes } := by
  induction nodes generalizing g with
  | nil => simp
  | cons n ns ih =>
    rw [List.foldl_cons, ih]
    simp [GraphDef.add_node]

theorem foldl_add_function (funcs : List FunctionDef) (l : FunctionDefLibrary) :
    funcs.foldl (fun l f => l.add_function f) l = { l with function := l.function ++ funcs } := by
  induction funcs generalizing l with
  | nil => simp
  | cons f fs ih =>
    rw [List.foldl_cons, ih]
    simp [FunctionDefLibrary.add_function]

theorem GDef_eq (c : VersionConstants) (nodes : List NodeDef) (funcs : List FunctionDef) :
    GDef c nodes funcs =
      { node := nodes,
        versions := { producer := c.TF_GRAPH_DEF_VERSION,
                      min_consumer := c.TF_GRAPH_DEF_VERSION_MIN_CONSUMER,
                      bad_consumers := [] },
        library := { function := funcs } } := by
  simp [GDef, foldl_add_node, foldl_add_function]

theorem foldl_add_input (inputs : List String) (n : NodeDef) :
    inputs.foldl (fun n i => n.add_input i) n = { n with input := n.input ++ inputs } := by
  induction inputs generalizing n with
  | nil => simp
  | cons i is ih =>
    rw [List.foldl_cons, ih]
    simp [NodeDef.add_input]

theorem foldl_insert_attr (attrs : List (String × FDH.AttrValueWrapper)) (n : NodeDef) :
    attrs.foldl (fun n na => n.insert_attr na.1 na.2.proto) n =
      { n with attr := n.attr.insertAll (attrs.map (fun na => (na.1, na.2.proto))) } := by
  induction attrs generalizing n with
  | nil => simp [ProtoMap.insertAll_nil]
  | cons a as ih =>
    rw [List.foldl_cons, ih]
    simp [NodeDef.insert_attr, ProtoMap.insertAll_cons]

theorem NDef_eq (name op : String) (inputs : List String)
    (attrs : List (String × FDH.AttrValueWrapper)) (device : String) :
    NDef name op inputs attrs device =
      { name := name, op := op, input := inputs, device := device,
        attr := ({} : ProtoMap AttrValue).insertAll
          (attrs.map (fun na => (na.1, na.2.proto))) } := by
  simp [NDef, foldl_add_input, foldl_insert_attr, NodeDef.set_name, NodeDef.set_op,
    NodeDef.set_device]

theorem NDef_attr_keys_nodup (name op : String) (inputs : List String)
    (attrs : List (String × FDH.AttrValueWrapper)) (device : String) :
    (NDef name op inputs attrs device).attr.keys.Nodup := by
  rw [NDef_eq]
  exact ProtoMap.nodup_keys_insertAll _ _ (by simp [ProtoMap.keys])

theorem NDef_mem_attr_keys (name op : String) (inputs : List String)
    (attrs : List (String × FDH.AttrValueWrapper)) (device : String) (k : String) :
    k ∈ (NDef name op inputs attrs device).attr.keys ↔ k ∈ attrs.map Prod.fst := by
  rw [NDef_eq]
  simp only [ProtoMap.mem_keys_insertAll, List.map_map]
  simp [ProtoMap.keys, Function.comp_def]

/-- The number of entries of the attribute map is the number of distinct names supplied. -/
theorem NDef_attr_size (name op : String) (inputs : List String)
    (attrs : List (String × FDH.AttrValueWrapper)) (device : String) :
    (NDef name op inputs attrs device).attr.size = (attrs.map Prod.fst).toFinset.card := by
  rw [ProtoMap.size_eq_length_keys,
    ← List.toFinset_card_of_nodup (NDef_attr_keys_nodup name op inputs attrs device)]
  congr 1
  ext k
  simp only [List.mem_toFinset]
  exact NDef_mem_attr_keys name op inputs attrs device k

/-- A name offered for the first time at some position is mapped to the value offered
there. -/
theorem NDef_find_first (name op : String) (inputs : List String)
    (pre post : List (String × FDH.AttrValueWrapper)) (na : String × FDH.AttrValueWrapper)
    (device : String) (h : na.1 ∉ pre.map Prod.fst) :
    (NDef name op inputs (pre ++ na :: post) device).attr.find na.1 = some na.2.proto := by
  rw [NDef_eq]
  simp only [ProtoMap.find_insertAll, List.nil_append, List.map_append, List.map_cons]
  rw [ProtoMap.lookup_append_of_not_mem (by simpa [Function.comp_def] using h)]
  simp [List.lookup]

end test.function

/-! ## The graph composer and the node builder: the stated properties -/

namespace test.function

open FunctionDefHelper

theorem card_toFinset_lt_of_not_nodup (l : List String) (h : ¬ l.Nodup) :
    l.toFinset.card < l.length := by
  rcases Nat.lt_or_eq_of_le (List.toFinset_card_le l) with h1 | h1
  · exact h1
  · exact absurd ((Multiset.toFinset_card_eq_card_iff_nodup (m := (l : Multiset String))).1
      (by simpa using h1)) (by simpa using h)

/-- C1: for every list of nodes and every list of function definitions, the document returned
by `GDef` has `versions.producer` equal to `TF_GRAPH_DEF_VERSION` and `versions.min_consumer`
equal to `TF_GRAPH_DEF_VERSION_MIN_CONSUMER`, whatever the two lists contain. -/
theorem GDef_stamps_versions (c : VersionConstants) (nodes : List NodeDef)
    (funcs : List FunctionDef) :
    (GDef c nodes funcs).versions.producer = c.TF_GRAPH_DEF_VERSION ∧
    (GDef c nodes funcs).versions.min_consumer = c.TF_GRAPH_DEF_VERSION_MIN_CONSUMER := by
  rw [GDef_eq]
  exact ⟨rfl, rfl⟩

/-- C2: for every list of nodes and every list of function definitions, repeated elements
included, the document returned by `GDef` has exactly `nodes` as its node sequence and exactly
`funcs` as its function library, in the same order; and with no nodes and the one function
returned by `XTimesTwo` the node list is empty and the library has length 1. -/
theorem GDef_keeps_nodes_and_functions (c : VersionConstants) (nodes : List NodeDef)
    (funcs : List FunctionDef) :
    (GDef c nodes funcs).node = nodes ∧
    (GDef c nodes funcs).library.function = funcs ∧
    ∃ f, XTimesTwo.result = .ok f ∧ (GDef c [] [f]).node = [] ∧
      (GDef c [] [f]).library.function = [f] ∧
      (GDef c [] [f]).library.function.length = 1 := by
  exact ⟨by rw [GDef_eq], by rw [GDef_eq], _, rfl, by rw [GDef_eq], by rw [GDef_eq],
    by rw [GDef_eq]; rfl⟩

/-- C4: for every name, op, input list, attribute list and device, the node returned by
`NDef` has that name, that op (any string), that device, and an input sequence equal to the
given list, string for string and in the same order; the reference strings `foo`, `foo:bar`
and `foo:bar:2` are stored as exactly those strings. -/
theorem NDef_keeps_name_op_device_inputs (name op : String) (inputs : List String)
    (attrs : List (String × FDH.AttrValueWrapper)) (device : String) :
    (NDef name op inputs attrs device).name = name ∧
    (NDef name op inputs attrs device).op = op ∧
    (NDef name op inputs attrs device).device = device ∧
    (NDef name op inputs attrs device).input = inputs ∧
    (NDef name op ["foo", "foo:bar", "foo:bar:2"] attrs device).input =
      ["foo", "foo:bar", "foo:bar:2"] := by
  simp only [NDef_eq, and_self]

/-- C10: for every attribute list passed to `NDef`, the keys of the returned node's attribute
map are exactly the attribute names occurring in the list, one entry per name, and each name
is mapped to the value of its first occurrence; when the names are pairwise distinct, every
supplied pair is present and the map has as many entries as the list. -/
theorem NDef_attr_first_occurrence_wins (name op : String) (inputs : List String)
    (attrs : List (String × FDH.AttrValueWrapper)) (device : String) :
    (∀ k, k ∈ (NDef name op inputs attrs device).attr.keys ↔ k ∈ attrs.map Prod.fst) ∧
    (NDef name op inputs attrs device).attr.keys.Nodup ∧
    (∀ pre na post, attrs = pre ++ na :: post → na.1 ∉ pre.map Prod.fst →
      (NDef name op inputs attrs device).attr.find na.1 = some na.2.proto) ∧
    ((attrs.map Prod.fst).Nodup →
      (∀ na ∈ attrs, (NDef name op inputs attrs device).attr.find na.1 = some na.2.proto) ∧
      (NDef name op inputs attrs device).attr.size = attrs.length) := by
  refine ⟨NDef_mem_attr_keys name op inputs attrs device,
    NDef_attr_keys_nodup name op inputs attrs device, ?_, ?_⟩
  · rintro pre na post rfl hfirst
    exact NDef_find_first name op inputs pre post na device hfirst
  · intro hnd
    constructor
    · intro na hna
      obtain ⟨pre, post, rfl⟩ := List.append_of_mem hna
      apply NDef_find_first
      intro hmem
      rw [List.map_append, List.map_cons] at hnd
      exact (List.disjoint_of_nodup_append hnd) hmem (List.mem_cons_self _ _)
    · rw [NDef_attr_size, List.toFinset_card_of_nodup hnd, List.length_map]

/-- Witness for C10: two attributes with distinct names are both present. -/
theorem NDef_attr_first_occurrence_wins_witness :
    (["T", "N"] : List String).Nodup ∧
    (NDef "y" "Mul" ["x", "scale"]
      [("T", { proto := .type DT_FLOAT }), ("N", { proto := .i 2 })] "").attr.size = 2 :=
  ⟨by decide,
   ((NDef_attr_first_occurrence_wins "y" "Mul" ["x", "scale"]
      [("T", { proto := .type DT_FLOAT }), ("N", { proto := .i 2 })] "").2.2.2
      (by decide)).2⟩

/-- C3, as the code behaves: for every name, op, input list, device and attribute list in
which some attribute name occurs twice, `NDef` returns a node; its attribute map has one entry
for each distinct name, so strictly fewer entries than the list, and every supplied name is a
key of it. -/
theorem NDef_repeated_attr_returns_node (name op : String) (inputs : List String)
    (attrs : List (String × FDH.AttrValueWrapper)) (device : String)
    (hdup : ¬ (attrs.map Prod.fst).Nodup) :
    ∃ n : NodeDef, NDef name op inputs attrs device = n ∧
      n.name = name ∧ n.op = op ∧
      n.attr.size = (attrs.map Prod.fst).toFinset.card ∧
      n.attr.size < attrs.length ∧
      ∀ k ∈ attrs.map Prod.fst, k ∈ n.attr.keys := by
  refine ⟨_, rfl, by rw [NDef_eq], by rw [NDef_eq], NDef_attr_size name op inputs attrs device,
    ?_, fun k hk => (NDef_mem_attr_keys name op inputs attrs device k).2 hk⟩
  rw [NDef_attr_size]
  simpa using card_toFinset_lt_of_not_nodup _ hdup

/-- Witness for C3 as amended: the attribute list of the spec's scenario C, two attributes
both named `T`. -/
theorem NDef_repeated_attr_returns_node_witness :
    ∃ n : NodeDef,
      NDef "y" "Mul" ["x", "scale"]
        [("T", { proto := .type DT_FLOAT }), ("T", { proto := .type DT_INT32 })] "" = n ∧
      n.name = "y" ∧ n.op = "Mul" ∧
      n.attr.size = (["T", "T"] : List String).toFinset.card ∧
      n.attr.size < 2 ∧
      ∀ k ∈ ["T", "T"], k ∈ n.attr.keys :=
  NDef_repeated_attr_returns_node "y" "Mul" ["x", "scale"]
    [("T", { proto := .type DT_FLOAT }), ("T", { proto := .type DT_INT32 })] "" (by decide)

/-- C3, counterexample: called with two attributes both named `T`, `NDef` does not fail; it
returns the node whose attribute map holds the first of the two values. -/
theorem NDef_two_T_attrs_is_a_node :
    ¬ (([("T", ({ proto := .type DT_FLOAT } : FDH.AttrValueWrapper)),
         ("T", { proto := .type DT_INT32 })]).map Prod.fst).Nodup ∧
    NDef "y" "Mul" ["x", "scale"]
      [("T", { proto := .type DT_FLOAT }), ("T", { proto := .type DT_INT32 })] "" =
      { name := "y", op := "Mul", input := ["x", "scale"], device := "",
        attr := { entries := [("T", .type DT_FLOAT)] } } :=
  ⟨by decide, rfl⟩

end test.function

/-! ## The fixtures -/

namespace FunctionDefHelper

theorem nodeNames_cons (n : Node) (l : List Node) :
    nodeNames (n :: l) = nodeNames [n] ++ nodeNames l := by
  unfold nodeNames
  cases h : n.name? <;> simp [List.filterMap_cons, h]

theorem refsResolveFrom_split (ins : List String) :
    ∀ (nodes : List Node) (earlier : List String),
      refsResolveFrom ins earlier nodes = true →
      ∀ (pre : List Node) (n : Node) (post : List Node), nodes = pre ++ n :: post →
      ∀ r ∈ n.arg,
        (nodePart r ∈ ins ∨ nodePart r ∈ earlier ++ nodeNames pre) ∧
        nodePart r ∉ nodeNames (n :: post) := by
  intro nodes
  induction nodes with
  | nil =>
    intro earlier _ pre n post hsplit
    simp at hsplit
  | cons m rest ih =>
    intro earlier hres pre n post hsplit r hr
    simp only [refsResolveFrom, Bool.and_eq_true, List.all_eq_true] at hres
    cases pre with
    | nil =>
      simp only [List.nil_append, List.cons.injEq] at hsplit
      obtain ⟨rfl, rfl⟩ := hsplit
      have h := hres.1 r hr
      have hin : nodePart r ∈ ins ∨ nodePart r ∈ earlier := by simpa using h.1
      have hout : nodePart r ∉ nodeNames (m :: rest) := by simpa using h.2
      refine ⟨?_, hout⟩
      rcases hin with h1 | h1
      · exact Or.inl h1
      · exact Or.inr (by simpa [nodeNames] using h1)
    | cons p pre =>
      simp only [List.cons_append, List.cons.injEq] at hsplit
      obtain ⟨rfl, rfl⟩ := hsplit
      have h := ih (earlier ++ nodeNames [m]) hres.2 pre n post rfl r hr
      refine ⟨?_, h.2⟩
      rcases h.1 with h1 | h1
      · exact Or.inl h1
      · right
        rw [nodeNames_cons m pre, ← List.append_assoc]
        exact h1

theorem argPlaceholdersDeclared_spec (attrNames : List String) (sig : String)
    (h : argPlaceholdersDeclared attrNames sig = true) :
    ∃ a, parseArg sig = .ok a ∧ ∀ p ∈ a.placeholderRefs, p ∈ attrNames := by
  unfold argPlaceholdersDeclared at h
  cases hp : parseArg sig with
  | error e => simp [hp] at h
  | ok a =>
    refine ⟨a, rfl, ?_⟩
    simpa [hp, List.all_eq_true] using h

theorem dollarRefs_str (rest : List Char) :
    (AttrArg.str (String.mk ('$' :: rest))).dollarRefs = [String.mk rest] := rfl

/-- The name the argument parser returns is the declared name of the signature. -/
theorem parseArg_name (sig : String) (a : ArgumentSpec) (h : parseArg sig = .ok a) :
    a.name = declaredName sig := by
  unfold parseArg splitFirst at h
  unfold declaredName
  split at h
  · simp at h
  · rename_i n t heq
    split at heq
    · simp at heq
    · simp only [Option.some.injEq, Prod.mk.injEq] at heq
      obtain ⟨rfl, rfl⟩ := heq
      split at h
      · split at h
        · split at h
          · simp only [Except.ok.injEq] at h
            rw [← h]
          · simp at h
        · split at h
          · split at h
            · simp only [Except.ok.injEq] at h
              rw [← h]
            · simp at h
          · simp at h
      · simp at h

/-- The name the attribute parser returns is the declared name of the signature. -/
theorem parseAttr_name (sig : String) (a : AttrSpec) (h : parseAttr sig = .ok a) :
    a.name = declaredName sig := by
  unfold parseAttr splitFirst at h
  unfold declaredName
  split at h
  · simp at h
  · rename_i n t heq
    split at heq
    · simp at heq
    · simp only [Option.some.injEq, Prod.mk.injEq] at heq
      obtain ⟨rfl, rfl⟩ := heq
      split at h
      · split at h
        · simp only [Except.ok.injEq] at h
          rw [← h]
        · simp at h
      · simp at h

end FunctionDefHelper

namespace test.function

open FunctionDefHelper

/-! ### Which fixtures there are -/

theorem explicitFixtures_subset : ∀ c ∈ explicitFixtures, c ∈ constantFixtures := by
  decide

theorem defaultedFixtures_subset : ∀ c ∈ defaultedFixtures, c ∈ constantFixtures := by
  decide

theorem constantFixtures_split :
    ∀ c ∈ constantFixtures, c ∈ explicitFixtures ∨ c ∈ defaultedFixtures := by
  decide

/-- Every fixture is built by `FDH::Create` or by `FDH::Define`, and the lists name them all. -/
theorem isFixture_iff (c : Call) :
    IsFixture c ↔ c ∈ explicitFixtures ∨ IsDefaultedFixture c := by
  unfold IsFixture IsDefaultedFixture
  constructor
  · rintro (h | h | h)
    · rcases constantFixtures_split c h with h1 | h1
      · exact Or.inl h1
      · exact Or.inr (Or.inl h1)
    · exact Or.inr (Or.inr (Or.inl h))
    · exact Or.inr (Or.inr (Or.inr h))
  · rintro (h | h | h | h)
    · exact Or.inl (explicitFixtures_subset c h)
    · exact Or.inl (defaultedFixtures_subset c h)
    · exact Or.inr (Or.inl h)
    · exact Or.inr (Or.inr h)

set_option maxRecDepth 100000 in
/-- Under the assembler of the specification every fixture's call passes the four
validations and returns a function definition. -/
theorem fixture_result_ok (c : Call) (hc : IsFixture c) : ∃ f, c.result = .ok f := by
  have key : c.result.toBool = true := by
    rcases hc with h | ⟨N, rfl⟩ | ⟨N, rfl⟩
    · exact (by decide : ∀ c ∈ constantFixtures, c.result.toBool = true) c h
    · rfl
    · rfl
  cases hr : c.result with
  | error e => simp [hr, Except.toBool] at key
  | ok f => exact ⟨f, rfl⟩

/-! ### The stated properties -/

/-- C5: the function definition returned by `XTimesTwo` (name `XTimesTwo`, input `x: T`, output
`y: T`, one attribute `T` over float, double, int32, int64, a body of the three nodes
two/Const, scale/Cast, y/Mul, built in defaulted mode) has the output mapping that sends `y`
to `y` and nothing else, and an attribute-spec list of exactly one entry, named `T` and
constrained to those four types. -/
theorem XTimesTwo_output_mapping_and_attr_spec :
    XTimesTwo.mapping? = none ∧
    ∃ f, XTimesTwo.result = .ok f ∧
      f.name = "XTimesTwo" ∧
      f.inputArgs = [{ name := "x", type := .placeholder "T" }] ∧
      f.outputArgs = [{ name := "y", type := .placeholder "T" }] ∧
      f.body.map (fun n => (n.name, n.op)) = [("two", "Const"), ("scale", "Cast"), ("y", "Mul")] ∧
      f.outputMapping.entries = [("y", "y")] ∧
      f.attrSpecs =
        [{ name := "T",
           constraint := .EnumOfTypes [DT_FLOAT, DT_DOUBLE, DT_INT32, DT_INT64] }] :=
  ⟨rfl, _, rfl, rfl, rfl, rfl, rfl, rfl, rfl⟩

set_option maxRecDepth 100000 in
/-- C6: for each of the ten fixtures built with `FDH::Create`, the explicit output-mapping
table has exactly one entry for every declared output argument, its set of keys is the set of
declared output argument names, and the node part of every target is a declared input
argument name or the name of a node of the fixture's body. -/
theorem explicit_fixture_output_mapping_complete (c : Call) (hc : c ∈ explicitFixtures) :
    IsFixture c ∧
    ∃ table, c.mapping? = some table ∧
      (∀ o ∈ c.outputNames, (table.filter (fun e => e.1 = o)).length = 1) ∧
      (∀ k, k ∈ table.map Prod.fst ↔ k ∈ c.outputNames) ∧
      (∀ e ∈ table, nodePart e.2 ∈ c.inputNames ∨ nodePart e.2 ∈ nodeNames c.nodes) := by
  have key : ∀ c ∈ explicitFixtures, ∀ table ∈ c.mapping?,
      (∀ o ∈ c.outputNames, (table.filter (fun e => e.1 = o)).length = 1) ∧
      (∀ k ∈ table.map Prod.fst, k ∈ c.outputNames) ∧
      (∀ o ∈ c.outputNames, o ∈ table.map Prod.fst) ∧
      (∀ e ∈ table, nodePart e.2 ∈ c.inputNames ∨ nodePart e.2 ∈ nodeNames c.nodes) := by
    decide
  have hsome : ∀ c ∈ explicitFixtures, c.mapping?.isSome = true := by decide
  refine ⟨Or.inl (explicitFixtures_subset c hc), ?_⟩
  obtain ⟨table, ht⟩ := Option.isSome_iff_exists.1 (hsome c hc)
  obtain ⟨h1, h2, h3, h4⟩ := key c hc table ht
  exact ⟨table, ht, h1, fun k => ⟨h2 k, h3 k⟩, h4⟩

/-- Witness for C6: the fixture `ResourceOutput`, whose first output is fed by an input
argument and whose second by a body node. -/
theorem explicit_fixture_output_mapping_complete_witness :
    ResourceOutput ∈ explicitFixtures ∧
    IsFixture ResourceOutput ∧
    ∃ table, ResourceOutput.mapping? = some table ∧
      (∀ o ∈ ResourceOutput.outputNames, (table.filter (fun e => e.1 = o)).length = 1) ∧
      (∀ k, k ∈ table.map Prod.fst ↔ k ∈ ResourceOutput.outputNames) ∧
      (∀ e ∈ table, nodePart e.2 ∈ ResourceOutput.inputNames ∨
        nodePart e.2 ∈ nodeNames ResourceOutput.nodes) :=
  ⟨by decide, explicit_fixture_output_mapping_complete ResourceOutput (by decide)⟩

set_option maxRecDepth 100000 in
/-- C7: in every function fixture of this file, `InvalidControlFlow` included, every input
reference of every body node resolves: its node part is a declared input argument name or the
name of a node listed strictly earlier in the body, and it is neither the name of the node
itself nor that of a later node. -/
theorem fixture_input_refs_resolve (c : Call) (hc : IsFixture c)
    (pre : List Node) (n : Node) (post : List Node) (hsplit : c.nodes = pre ++ n :: post)
    (r : String) (hr : r ∈ n.arg) :
    (nodePart r ∈ c.inputNames ∨ nodePart r ∈ nodeNames pre) ∧
    nodePart r ∉ nodeNames (n :: post) := by
  have key : refsResolveFrom c.inputNames [] c.nodes = true := by
    rcases hc with h | ⟨N, rfl⟩ | ⟨N, rfl⟩
    · exact (by decide :
        ∀ c ∈ constantFixtures, refsResolveFrom c.inputNames [] c.nodes = true) c h
    · rfl
    · rfl
  simpa using refsResolveFrom_split c.inputNames c.nodes [] key pre n post hsplit r hr

/-- Witness for C7: the reference `enter:output` of the node `add` of `InvalidControlFlow`
names the node `enter`, listed before `add`. -/
theorem fixture_input_refs_resolve_witness :
    (nodePart "enter:output" ∈ InvalidControlFlow.inputNames ∨
      nodePart "enter:output" ∈ nodeNames
        [⟨["enter"], "Enter", ["i"],
          [("T", .dtype DT_INT32), ("frame_name", .str "while")], [], ""⟩]) ∧
    nodePart "enter:output" ∉ nodeNames
      [⟨["add"], "Add", ["enter:output", "i"], [("T", .dtype DT_INT32)], [], ""⟩] :=
  fixture_input_refs_resolve InvalidControlFlow (Or.inl (by decide))
    [⟨["enter"], "Enter", ["i"], [("T", .dtype DT_INT32), ("frame_name", .str "while")], [], ""⟩]
    ⟨["add"], "Add", ["enter:output", "i"], [("T", .dtype DT_INT32)], [], ""⟩ []
    rfl "enter:output" (by decide)

end test.function

namespace test.function

open FunctionDefHelper

set_option maxRecDepth 100000 in
/-- C8: in every function fixture of this file the placeholder references are closed over the
fixture's own signature: every string attribute value of a body node that begins with `$`
names, once the `$` is stripped, an attribute declared in the fixture's attribute list, and
every input and output signature parses to an argument whose placeholder type and list count
(such as `T` and `N` in `x1: N * T`, or `Toutput_types`) are declared attributes. -/
theorem fixture_placeholders_declared (c : Call) (hc : IsFixture c) :
    (∀ n ∈ c.nodes, ∀ kv ∈ n.attr, ∀ rest : List Char,
      kv.2 = .str (String.mk ('$' :: rest)) → String.mk rest ∈ c.attrNames) ∧
    (∀ sig ∈ c.inputs ++ c.outputs,
      ∃ a, parseArg sig = .ok a ∧ ∀ p ∈ a.placeholderRefs, p ∈ c.attrNames) := by
  have key : (∀ n ∈ c.nodes, ∀ kv ∈ n.attr, ∀ p ∈ kv.2.dollarRefs, p ∈ c.attrNames) ∧
      (∀ sig ∈ c.inputs ++ c.outputs, argPlaceholdersDeclared c.attrNames sig = true) := by
    rcases hc with h | ⟨N, rfl⟩ | ⟨N, rfl⟩
    · exact (by decide : ∀ c ∈ constantFixtures,
        (∀ n ∈ c.nodes, ∀ kv ∈ n.attr, ∀ p ∈ kv.2.dollarRefs, p ∈ c.attrNames) ∧
        (∀ sig ∈ c.inputs ++ c.outputs, argPlaceholdersDeclared c.attrNames sig = true)) c h
    · exact of_decide_eq_true rfl
    · exact of_decide_eq_true rfl
  refine ⟨?_, fun sig hsig => argPlaceholdersDeclared_spec _ _ (key.2 sig hsig)⟩
  intro n hn kv hkv rest hrest
  apply key.1 n hn kv hkv
  rw [hrest, dollarRefs_str]
  exact List.mem_singleton_self _

/-- Witness for C8: `FuncWithListInput`, whose input `x1: N * T` uses the attributes `N`
and `T`. -/
theorem fixture_placeholders_declared_witness :
    IsFixture FuncWithListInput ∧
    ∀ sig ∈ FuncWithListInput.inputs ++ FuncWithListInput.outputs,
      ∃ a, parseArg sig = .ok a ∧
        ∀ p ∈ a.placeholderRefs, p ∈ FuncWithListInput.attrNames :=
  ⟨Or.inl (by decide),
   (fixture_placeholders_declared FuncWithListInput (Or.inl (by decide))).2⟩

set_option maxRecDepth 100000 in
/-- C9: every fixture built with `FDH::Define` (the ten argument-free ones and the two
parameterised by `N`) is a fixture of this file without an output mapping, and for every
declared output argument its body contains exactly one node whose name is that of the
output argument. -/
theorem defaulted_fixture_output_has_one_node (c : Call) (hc : IsDefaultedFixture c) :
    IsFixture c ∧ c.mapping? = none ∧
    ∀ o ∈ c.outputNames, (c.nodes.filter (fun n => n.name? = some o)).length = 1 := by
  rcases hc with h | ⟨N, rfl⟩ | ⟨N, rfl⟩
  · exact ⟨Or.inl (defaultedFixtures_subset c h),
      (by decide : ∀ c ∈ defaultedFixtures, c.mapping? = none ∧
        ∀ o ∈ c.outputNames, (c.nodes.filter (fun n => n.name? = some o)).length = 1) c h⟩
  · exact ⟨Or.inr (Or.inl ⟨N, rfl⟩), rfl, of_decide_eq_true rfl⟩
  · exact ⟨Or.inr (Or.inr ⟨N, rfl⟩), rfl, of_decide_eq_true rfl⟩

/-- Witness for C9: the fixture `LessThanOrEqualToN 5`, whose output `z` is produced by the
one node named `z`. -/
theorem defaulted_fixture_output_has_one_node_witness :
    IsDefaultedFixture (LessThanOrEqualToN 5) ∧
    ∀ o ∈ (LessThanOrEqualToN 5).outputNames,
      ((LessThanOrEqualToN 5).nodes.filter (fun n => n.name? = some o)).length = 1 :=
  ⟨Or.inr (Or.inl ⟨5, rfl⟩),
   (defaulted_fixture_output_has_one_node (LessThanOrEqualToN 5)
      (Or.inr (Or.inl ⟨5, rfl⟩))).2.2⟩

end test.function

end tensorflow
